import Mathlib

/-!
Verification of the RemoteConfig auto-committer scripts
(src/auto_committer.py and src/auto_committer_readme.py).

The two Python scripts run a heartbeat loop: mutate a target file, stage it,
commit, optionally push, sleep, repeat.  We embed the pure decision logic of
each function shallowly: external effects (the git subprocess, the clock, the
filesystem) become explicit inputs, and each function becomes a Lean function
from those inputs to the effects it produces.
-/

/-- Outcome of spawning the external git process: exit code plus the captured
standard output and standard error (`subprocess.run(... capture_output=True)`). -/
structure ProcResult where
  exitCode : Nat
  stdout : String
  stderr : String
deriving DecidableEq, Repr

/-- The payload of a raised `CalledProcessError`: the captured standard output
and standard error of the failed process. -/
structure CommandResult where
  stdout : String
  stderr : String
deriving DecidableEq, Repr

/-- Python whitespace as removed by `str.strip()` with no argument. -/
def isPySpace (c : Char) : Bool :=
  c = ' ' || c = '\t' || c = '\n' || c = '\r' || c = '\x0b' || c = '\x0c'

/-- Model of Python `str.strip()`: drop leading and trailing whitespace. -/
def pyStrip (s : String) : String :=
  ⟨((s.data.dropWhile isPySpace).reverse.dropWhile isPySpace).reverse⟩

/-- `sh(cmd, cwd)` from both scripts: run the command; on zero exit status
return `r.stdout.strip()`, on non-zero exit raise `CalledProcessError`
carrying the raw captured stdout and stderr. -/
def sh (r : ProcResult) : Except CommandResult String :=
  if r.exitCode = 0 then .ok (pyStrip r.stdout) else .error ⟨r.stdout, r.stderr⟩

/-- Python `line.endswith \x7b"\n"\x7d`: the string is nonempty and its last
character is a newline. -/
def endsWithNL (s : String) : Bool :=
  s.data.getLast? == some '\n'

/-- `write_line(file_path, line, prepend)` from src/auto_committer_readme.py.
`existing` is the file's prior contents (`none` when the file does not exist);
the result is the file's contents after the call.  Prepend mode writes the
line (plus a newline when the line lacks one) followed by the prior contents;
append mode appends the same payload. -/
def write_line (existing : Option String) (line : String) (prepend : Bool) : String :=
  let payload := line ++ (if endsWithNL line then "" else "\n")
  if prepend then
    payload ++ existing.getD ""
  else
    existing.getD "" ++ payload

/-- Replace every occurrence of the four-character placeholder
`\x7bts\x7d` by `ts`, scanning left to right. -/
def renderAux (ts : List Char) : List Char → List Char
  | '\x7b' :: 't' :: 's' :: '\x7d' :: rest => ts ++ renderAux ts rest
  | c :: rest => c :: renderAux ts rest
  | [] => []

/-- `args.line_template.format(ts=ts)` from src/auto_committer_readme.py:
replace every occurrence of the `ts` placeholder with the timestamp.
Modelled from Python `str.format` restricted to the single `ts` field the
script supplies. -/
def renderTemplate (template ts : String) : String :=
  ⟨renderAux ts.data template.data⟩

/-- Model of Python `str.lower()` (ASCII case mapping, which is all the
marker scan needs). -/
def pyLower (s : String) : String :=
  ⟨s.data.map Char.toLower⟩

/-- Does `t` start with `pat`, then recursively any later position. -/
def hasSubstrAux (pat : List Char) : List Char → Bool
  | [] => pat.isEmpty
  | c :: rest => pat.isPrefixOf (c :: rest) || hasSubstrAux pat rest

/-- Python `pat in s`: `pat` occurs as a contiguous substring of `s`. -/
def hasSubstr (pat s : String) : Bool :=
  hasSubstrAux pat.data s.data

/-- The marker scan from both scripts:
`"nothing to commit" in (e.stdout + e.stderr).lower()`. -/
def isNothingToCommit (e : CommandResult) : Bool :=
  hasSubstr "nothing to commit" (pyLower (e.stdout ++ e.stderr))

/-! ## Branch initialization (`ensure_branch`, identical in both scripts) -/

/-- A git operation issued by `ensure_branch`, for tracing which commands ran. -/
inductive GitOp where
  | verifyRef (branch : String)
  | checkout (branch : String)
  | createBranch (branch : String)
deriving DecidableEq, Repr

/-- Local repository state as `ensure_branch` observes and changes it:
the local branches and the currently checked-out branch.
`git rev-parse --verify <b>` succeeds exactly when `b` is a local branch;
`git checkout <b>` switches to an existing branch; `git checkout -b <b>`
creates `b` from the current head and switches to it. -/
structure RepoState where
  branches : List String
  current : String
deriving DecidableEq, Repr

/-- `ensure_branch(repo, branch)`: try `git rev-parse --verify` then
`git checkout`; on `CalledProcessError` fall back to `git checkout -b`.
Returns the resulting repository state and the trace of operations run. -/
def ensure_branch (s : RepoState) (branch : String) : RepoState × List GitOp :=
  if branch ∈ s.branches then
    ({ s with current := branch }, [.verifyRef branch, .checkout branch])
  else
    ({ branches := branch :: s.branches, current := branch },
     [.verifyRef branch, .createBranch branch])

/-! ## Startup checks (`main`, both scripts) -/

/-- What `main` does before entering the loop: exit with a status code, or
proceed (recording whether the dirty-working-tree warning was printed). -/
inductive StartupOutcome where
  | exit (code : Nat)
  | proceed (warned : Bool)
deriving DecidableEq, Repr

/-- The startup sequence of `main`: exit 2 when `repo/.git` is missing;
otherwise run `git status --porcelain` through `sh` and exit 3 when it
fails; otherwise proceed, warning when the stripped status output is
nonempty. -/
def startupCheck (gitDirExists : Bool) (statusRes : ProcResult) : StartupOutcome :=
  if !gitDirExists then .exit 2
  else
    match sh statusRes with
    | .error _ => .exit 3
    | .ok out => .proceed (out ≠ "")

/-! ## The heartbeat writer (`write_heartbeat`, src/auto_committer.py) -/

/-- A UTC instant broken into the fields the `strftime` format string uses. -/
structure UtcTime where
  year : Nat
  month : Nat
  day : Nat
  hour : Nat
  minute : Nat
  second : Nat
  micro : Nat
deriving DecidableEq, Repr

/-- The decimal digit character for `n % 10`. -/
def digitChar (n : Nat) : Char :=
  Char.ofNat (48 + n % 10)

/-- Decimal digits of `n`, most significant first, accumulator style.
The fuel argument only bounds the recursion; `fuel ≥ n` is always enough. -/
def natDigitsCore : Nat → Nat → List Char → List Char
  | 0, _, acc => acc
  | _ + 1, 0, acc => acc
  | fuel + 1, n + 1, acc =>
      natDigitsCore fuel ((n + 1) / 10) (digitChar (n + 1) :: acc)

/-- Decimal digits of `n` (`['0']` for zero). -/
def natDigits (n : Nat) : List Char :=
  if n = 0 then ['0'] else natDigitsCore n n []

/-- Zero-pad the decimal rendering of `n` to width `w`, as the `strftime`
directives `%Y` (w=4), `%m %d %H %M %S` (w=2) and `%f` (w=6) do. -/
def padNum (w n : Nat) : String :=
  ⟨List.replicate (w - (natDigits n).length) '0' ++ natDigits n⟩

/-- Modelled from the format string in src/auto_committer.py line 37:
`datetime.now(timezone.utc).strftime("%Y-%m-%dT%H:%M:%S.%fZ")` — the UTC
instant rendered as fixed-precision ISO-8601 with microseconds. -/
def formatTs (t : UtcTime) : String :=
  padNum 4 t.year ++ "-" ++ padNum 2 t.month ++ "-" ++ padNum 2 t.day ++ "T" ++
    padNum 2 t.hour ++ ":" ++ padNum 2 t.minute ++ ":" ++ padNum 2 t.second ++
    "." ++ padNum 6 t.micro ++ "Z"

/-- `write_heartbeat(file_path)` from src/auto_committer.py: format the
current UTC instant, append `"heartbeat: <ts>\n"` to the file, and return
the formatted timestamp.  `prior` is the file's prior contents (`none` when
the file does not exist; open-for-append then starts it empty). -/
def write_heartbeat (prior : Option String) (now : UtcTime) : String × String :=
  let ts := formatTs now
  (prior.getD "" ++ "heartbeat: " ++ ts ++ "\n", ts)

/-! ## The loop body (`main` of src/auto_committer_readme.py, lines 86-116)

The loop body is embedded as a function from the iteration's external inputs
(the clock's timestamp, and the process results of `git add`, `git commit`
and `git push`) to the effects it produces.  The `--no-push` flag carries the
corrected semantics (`args.no_push`) that the spec assumes throughout; the
structure is otherwise shared with `main` of src/auto_committer.py. -/

/-- The configuration fields the loop body reads. -/
structure LoopConfig where
  lineTemplate : String
  message : String
  prepend : Bool
  noPush : Bool
deriving DecidableEq, Repr

/-- How one pass through the loop body ended. -/
inductive IterStatus where
  /-- `git add` raised and nothing catches it: the loop aborts. -/
  | fatal (e : CommandResult)
  /-- Commit failed (not nothing-to-commit): logged, slept, `continue` —
  push skipped, next iteration restarts from the mutate step. -/
  | retried
  /-- The body reached the final `time.sleep` normally. -/
  | completed
deriving DecidableEq, Repr

/-- Observable effects of one pass through the loop body. -/
structure IterEffects where
  /-- Target file contents after the mutate step. -/
  fileContent : String
  /-- The rendered commit message `f"{args.message} {ts}"`. -/
  commitMessage : String
  /-- Whether `git commit` succeeded, creating a local commit. -/
  commitCreated : Bool
  /-- Whether `git push` was invoked. -/
  pushAttempted : Bool
  /-- Whether the commit-failure message was printed. -/
  commitFailureLogged : Bool
  /-- Whether the push-failure message was printed. -/
  pushFailureLogged : Bool
  status : IterStatus
deriving DecidableEq, Repr

/-- The push step: skipped under `--no-push`; otherwise `git push` runs and
a failure is logged and swallowed.  Returns (attempted, failureLogged). -/
def pushStep (cfg : LoopConfig) (pushRes : ProcResult) : Bool × Bool :=
  if cfg.noPush then (false, false)
  else
    match sh pushRes with
    | .ok _ => (true, false)
    | .error _ => (true, true)

/-- One pass through the `while True` body: render the line, mutate the file,
stage, commit (with the nothing-to-commit / other-failure split), then push
unless disabled, then sleep. -/
def runIteration (cfg : LoopConfig) (prior : Option String) (ts : String)
    (addRes commitRes pushRes : ProcResult) : IterEffects :=
  let line := renderTemplate cfg.lineTemplate ts
  let content := write_line prior line cfg.prepend
  let msg := cfg.message ++ " " ++ ts
  match sh addRes with
  | .error e =>
      { fileContent := content, commitMessage := msg, commitCreated := false,
        pushAttempted := false, commitFailureLogged := false,
        pushFailureLogged := false, status := .fatal e }
  | .ok _ =>
      match sh commitRes with
      | .error e =>
          if isNothingToCommit e then
            let p := pushStep cfg pushRes
            { fileContent := content, commitMessage := msg,
              commitCreated := false, pushAttempted := p.1,
              commitFailureLogged := false, pushFailureLogged := p.2,
              status := .completed }
          else
            { fileContent := content, commitMessage := msg,
              commitCreated := false, pushAttempted := false,
              commitFailureLogged := true, pushFailureLogged := false,
              status := .retried }
      | .ok _ =>
          let p := pushStep cfg pushRes
          { fileContent := content, commitMessage := msg,
            commitCreated := true, pushAttempted := p.1,
            commitFailureLogged := false, pushFailureLogged := p.2,
            status := .completed }

/-- The external inputs consumed by one loop iteration. -/
structure IterInput where
  ts : String
  addRes : ProcResult
  commitRes : ProcResult
  pushRes : ProcResult
deriving DecidableEq, Repr

/-- Repository-side state the loop accumulates: the target file's contents
and how many local commits exist. -/
structure LoopRepo where
  fileContent : Option String
  commitCount : Nat
deriving DecidableEq, Repr

/-- Run the loop over a finite stream of iteration inputs, threading the
repository state and collecting each iteration's effects.  A fatal iteration
(uncaught `CalledProcessError` from `git add`) stops the loop. -/
def runLoopTrace (cfg : LoopConfig) : LoopRepo → List IterInput →
    LoopRepo × List IterEffects
  | s, [] => (s, [])
  | s, inp :: rest =>
      let r := runIteration cfg s.fileContent inp.ts inp.addRes inp.commitRes inp.pushRes
      let s2 : LoopRepo :=
        { fileContent := some r.fileContent,
          commitCount := s.commitCount + (if r.commitCreated then 1 else 0) }
      match r.status with
      | .fatal _ => (s2, [r])
      | _ =>
          let t := runLoopTrace cfg s2 rest
          (t.1, r :: t.2)

/-! ## Helper lemmas -/

theorem data_append (a b : String) : (a ++ b).data = a.data ++ b.data := rfl

theorem digitChar_isDigit (n : Nat) : (digitChar n).isDigit = true := by
  have h : n % 10 < 10 := Nat.mod_lt _ (by omega)
  unfold digitChar
  set k := n % 10 with hk
  interval_cases k <;> decide

theorem natDigitsCore_digits :
    ∀ (fuel n : Nat) (acc : List Char), (∀ c ∈ acc, c.isDigit = true) →
      ∀ c ∈ natDigitsCore fuel n acc, c.isDigit = true := by
  intro fuel
  induction fuel with
  | zero => intro n acc hacc c hc; exact hacc c hc
  | succ f ih =>
      intro n acc hacc c hc
      match n with
      | 0 => exact hacc c hc
      | m + 1 =>
          refine ih ((m + 1) / 10) (digitChar (m + 1) :: acc) ?_ c hc
          intro d hd
          rcases List.mem_cons.mp hd with h1 | h2
          · rw [h1]; exact digitChar_isDigit (m + 1)
          · exact hacc d h2

theorem natDigits_digits (n : Nat) : ∀ c ∈ natDigits n, c.isDigit = true := by
  intro c hc
  unfold natDigits at hc
  by_cases h : n = 0
  · rw [if_pos h] at hc
    simp only [List.mem_singleton] at hc
    rw [hc]; decide
  · rw [if_neg h] at hc
    exact natDigitsCore_digits n n [] (by intro d hd; cases hd) c hc

theorem natDigitsCore_length_le :
    ∀ (fuel k n : Nat) (acc : List Char), n < 10 ^ k →
      (natDigitsCore fuel n acc).length ≤ k + acc.length := by
  intro fuel
  induction fuel with
  | zero => intro k n acc h; exact Nat.le_add_left _ _
  | succ f ih =>
      intro k n acc h
      match n with
      | 0 => exact Nat.le_add_left _ _
      | m + 1 =>
          match k with
          | 0 => rw [pow_zero] at h; omega
          | j + 1 =>
              have hdiv : (m + 1) / 10 < 10 ^ j := by
                have h2 : m + 1 < 10 * 10 ^ j := by
                  rw [← pow_succ']; exact h
                exact Nat.div_lt_of_lt_mul h2
              have h3 := ih j ((m + 1) / 10) (digitChar (m + 1) :: acc) hdiv
              simp only [List.length_cons] at h3
              calc (natDigitsCore (f + 1) (m + 1) acc).length
                  = (natDigitsCore f ((m + 1) / 10) (digitChar (m + 1) :: acc)).length := rfl
                _ ≤ j + (acc.length + 1) := h3
                _ = (j + 1) + acc.length := by omega

theorem natDigits_length_le {k n : Nat} (hk : 0 < k) (h : n < 10 ^ k) :
    (natDigits n).length ≤ k := by
  unfold natDigits
  by_cases h0 : n = 0
  · rw [if_pos h0]; simpa using hk
  · rw [if_neg h0]
    have h2 := natDigitsCore_length_le n k n [] h
    simpa using h2

theorem padNum_length {w n : Nat} (hw : 0 < w) (h : n < 10 ^ w) :
    (padNum w n).length = w := by
  have hle := natDigits_length_le hw h
  have h2 : (padNum w n).length =
      (List.replicate (w - (natDigits n).length) '0' ++ natDigits n).length := rfl
  rw [h2, List.length_append, List.length_replicate]
  omega

theorem padNum_digits (w n : Nat) : ∀ c ∈ (padNum w n).data, c.isDigit = true := by
  intro c hc
  unfold padNum at hc
  rcases List.mem_append.mp hc with h | h
  · rw [List.eq_of_mem_replicate h]; decide
  · exact natDigits_digits n c h

theorem padNum_no_newline (w n : Nat) : '\n' ∉ (padNum w n).data := by
  intro h
  have := padNum_digits w n '\n' h
  exact absurd this (by decide)

theorem no_newline_append {a b : String} (ha : '\n' ∉ a.data) (hb : '\n' ∉ b.data) :
    '\n' ∉ (a ++ b).data := by
  rw [data_append]
  intro h
  rcases List.mem_append.mp h with h | h
  · exact ha h
  · exact hb h

theorem formatTs_no_newline (t : UtcTime) : '\n' ∉ (formatTs t).data := by
  have h1 := padNum_no_newline 4 t.year
  have h2 := padNum_no_newline 2 t.month
  have h3 := padNum_no_newline 2 t.day
  have h4 := padNum_no_newline 2 t.hour
  have h5 := padNum_no_newline 2 t.minute
  have h6 := padNum_no_newline 2 t.second
  have h7 := padNum_no_newline 6 t.micro
  have d1 : '\n' ∉ ("-" : String).data := by decide
  have d2 : '\n' ∉ ("T" : String).data := by decide
  have d3 : '\n' ∉ (":" : String).data := by decide
  have d4 : '\n' ∉ ("." : String).data := by decide
  have d5 : '\n' ∉ ("Z" : String).data := by decide
  exact no_newline_append (no_newline_append (no_newline_append (no_newline_append
    (no_newline_append (no_newline_append (no_newline_append (no_newline_append
    (no_newline_append (no_newline_append (no_newline_append (no_newline_append
    (no_newline_append h1 d1) h2) d1) h3) d2) h4) d3) h5) d3) h6) d4) h7) d5

theorem count_newline_formatTs (t : UtcTime) : (formatTs t).data.count '\n' = 0 :=
  List.count_eq_zero.mpr (formatTs_no_newline t)

theorem isPrefixOf_map (f : Char → Char) (p t : List Char)
    (h : p.isPrefixOf t = true) : (p.map f).isPrefixOf (t.map f) = true := by
  rw [List.isPrefixOf_iff_prefix] at h ⊢
  exact h.map f

theorem hasSubstrAux_map (f : Char → Char) (p : List Char) :
    ∀ t, hasSubstrAux p t = true → hasSubstrAux (p.map f) (t.map f) = true := by
  intro t
  induction t with
  | nil =>
      intro h
      have h2 : p.isEmpty = true := h
      rw [List.isEmpty_iff] at h2
      show (p.map f).isEmpty = true
      simp [h2]
  | cons c r ih =>
      intro h
      have h2 : (p.isPrefixOf (c :: r) || hasSubstrAux p r) = true := h
      show ((p.map f).isPrefixOf (f c :: r.map f) || hasSubstrAux (p.map f) (r.map f)) = true
      rcases Bool.or_eq_true_iff.mp h2 with h1 | h1
      · have h3 := isPrefixOf_map f p (c :: r) h1
        rw [List.map_cons] at h3
        exact Bool.or_eq_true_iff.mpr (Or.inl h3)
      · exact Bool.or_eq_true_iff.mpr (Or.inr (ih h1))

theorem marker_in_lower {s : String}
    (h : hasSubstr "nothing to commit" s = true) :
    hasSubstr "nothing to commit" (pyLower s) = true := by
  have h2 := hasSubstrAux_map Char.toLower "nothing to commit".data s.data h
  have hm : "nothing to commit".data.map Char.toLower = "nothing to commit".data := by
    decide
  rw [hm] at h2
  exact h2

theorem sh_ok {r : ProcResult} (h : r.exitCode = 0) :
    sh r = .ok (pyStrip r.stdout) := by
  simp [sh, h]

theorem sh_err {r : ProcResult} (h : r.exitCode ≠ 0) :
    sh r = .error ⟨r.stdout, r.stderr⟩ := by
  simp [sh, h]

theorem pushStep_ok {cfg : LoopConfig} {pushRes : ProcResult}
    (hnp : cfg.noPush = false) (hp : pushRes.exitCode = 0) :
    pushStep cfg pushRes = (true, false) := by
  simp [pushStep, hnp, sh_ok hp]

theorem pushStep_fail {cfg : LoopConfig} {pushRes : ProcResult}
    (hnp : cfg.noPush = false) (hp : pushRes.exitCode ≠ 0) :
    pushStep cfg pushRes = (true, true) := by
  simp [pushStep, hnp, sh_err hp]

theorem runIteration_commit_ok (cfg : LoopConfig) (prior : Option String)
    (ts : String) (addRes commitRes pushRes : ProcResult)
    (ha : addRes.exitCode = 0) (hc : commitRes.exitCode = 0) :
    runIteration cfg prior ts addRes commitRes pushRes =
      { fileContent := write_line prior (renderTemplate cfg.lineTemplate ts) cfg.prepend,
        commitMessage := cfg.message ++ " " ++ ts,
        commitCreated := true,
        pushAttempted := (pushStep cfg pushRes).1,
        commitFailureLogged := false,
        pushFailureLogged := (pushStep cfg pushRes).2,
        status := .completed } := by
  simp only [runIteration, sh_ok ha, sh_ok hc]

theorem runIteration_commit_fail (cfg : LoopConfig) (prior : Option String)
    (ts : String) (addRes commitRes pushRes : ProcResult)
    (ha : addRes.exitCode = 0) (hc : commitRes.exitCode ≠ 0)
    (hm : isNothingToCommit ⟨commitRes.stdout, commitRes.stderr⟩ = false) :
    runIteration cfg prior ts addRes commitRes pushRes =
      { fileContent := write_line prior (renderTemplate cfg.lineTemplate ts) cfg.prepend,
        commitMessage := cfg.message ++ " " ++ ts,
        commitCreated := false,
        pushAttempted := false,
        commitFailureLogged := true,
        pushFailureLogged := false,
        status := .retried } := by
  simp only [runIteration, sh_ok ha, sh_err hc, hm, Bool.false_eq_true, if_false]

theorem runIteration_nothing_to_commit (cfg : LoopConfig) (prior : Option String)
    (ts : String) (addRes commitRes pushRes : ProcResult)
    (ha : addRes.exitCode = 0) (hc : commitRes.exitCode ≠ 0)
    (hm : isNothingToCommit ⟨commitRes.stdout, commitRes.stderr⟩ = true) :
    runIteration cfg prior ts addRes commitRes pushRes =
      { fileContent := write_line prior (renderTemplate cfg.lineTemplate ts) cfg.prepend,
        commitMessage := cfg.message ++ " " ++ ts,
        commitCreated := false,
        pushAttempted := (pushStep cfg pushRes).1,
        commitFailureLogged := false,
        pushFailureLogged := (pushStep cfg pushRes).2,
        status := .completed } := by
  simp only [runIteration, sh_ok ha, sh_err hc, hm, if_true]

theorem runIteration_fileContent (cfg : LoopConfig) (prior : Option String)
    (ts : String) (addRes commitRes pushRes : ProcResult) :
    (runIteration cfg prior ts addRes commitRes pushRes).fileContent =
      write_line prior (renderTemplate cfg.lineTemplate ts) cfg.prepend := by
  rcases hA : sh addRes with e | o
  · simp [runIteration, hA]
  · rcases hC : sh commitRes with e | o2
    · by_cases hm : isNothingToCommit e <;> simp [runIteration, hA, hC, hm]
    · simp [runIteration, hA, hC]

theorem runIteration_commitMessage (cfg : LoopConfig) (prior : Option String)
    (ts : String) (addRes commitRes pushRes : ProcResult) :
    (runIteration cfg prior ts addRes commitRes pushRes).commitMessage =
      cfg.message ++ " " ++ ts := by
  rcases hA : sh addRes with e | o
  · simp [runIteration, hA]
  · rcases hC : sh commitRes with e | o2
    · by_cases hm : isNothingToCommit e <;> simp [runIteration, hA, hC, hm]
    · simp [runIteration, hA, hC]

/-! ## The claims -/

/-- Claim C4: in prepend mode, `write_line` writes the rendered line followed
by a newline (added only when the line lacks one) followed by the file's
entire prior contents; in particular prior `"A\n"` with new line `"B"`
yields `"B\nA\n"`. -/
theorem prepend_writes_line_then_prior :
    (∀ (prior line : String),
      write_line (some prior) line true =
        (line ++ if endsWithNL line then "" else "\n") ++ prior) ∧
    write_line (some "A\n") "B" true = "B\nA\n" := by
  constructor
  · intro prior line
    rfl
  · decide

/-- Claim C5: in append-templated mode the rendered line is the template with
the `ts` placeholder replaced by the timestamp (as in the concrete heartbeat
example), and the line is appended with a trailing newline added exactly when
the rendered line does not already end in one. -/
theorem append_templated_renders_and_appends :
    renderTemplate "- heartbeat \x7bts\x7d" "2024-01-01T00:00:00.000000Z" =
      "- heartbeat 2024-01-01T00:00:00.000000Z" ∧
    (∀ (prior line : String),
      write_line (some prior) line false =
        prior ++ (line ++ if endsWithNL line then "" else "\n")) := by
  constructor
  · decide
  · intro prior line
    rfl

/-- Claim C9, counterexample: `sh` does not return the collaborator's
standard output exactly on success — a trailing newline is stripped. -/
theorem sh_not_exact_stdout :
    sh ⟨0, "x\n", ""⟩ = .ok "x" ∧ ("x" : String) ≠ "x\n" :=
  ⟨rfl, by decide⟩

/-- Claim C9 (amended): on failure `sh` propagates the collaborator's raw
captured stdout and stderr unmodified; on success it returns the stdout with
leading and trailing whitespace stripped. -/
theorem sh_propagates_output (r : ProcResult) :
    (r.exitCode = 0 → sh r = .ok (pyStrip r.stdout)) ∧
    (r.exitCode ≠ 0 → sh r = .error ⟨r.stdout, r.stderr⟩) :=
  ⟨sh_ok, sh_err⟩

theorem sh_propagates_output_witness :
    sh ⟨0, " ok \n", ""⟩ = .ok "ok" ∧
    sh ⟨1, "out", "err"⟩ = .error ⟨"out", "err"⟩ := by
  constructor
  · have h := (sh_propagates_output ⟨0, " ok \n", ""⟩).1 rfl
    rw [h]
    rfl
  · exact (sh_propagates_output ⟨1, "out", "err"⟩).2 (by decide)

/-- Claim C8: startup exits with status code 2 when the repository path lacks
the `.git` metadata directory, and with status code 3 when the initial
`git status` check fails. -/
theorem startup_exit_codes (gitDirExists : Bool) (statusRes : ProcResult) :
    (gitDirExists = false → startupCheck gitDirExists statusRes = .exit 2) ∧
    (gitDirExists = true → statusRes.exitCode ≠ 0 →
      startupCheck gitDirExists statusRes = .exit 3) := by
  constructor
  · intro h
    simp [startupCheck, h]
  · intro h hs
    simp [startupCheck, h, sh_err hs]

theorem startup_exit_codes_witness :
    startupCheck false ⟨0, "", ""⟩ = .exit 2 ∧
    startupCheck true ⟨1, "", "fatal: not a git repository"⟩ = .exit 3 :=
  ⟨(startup_exit_codes false ⟨0, "", ""⟩).1 rfl,
   (startup_exit_codes true ⟨1, "", "fatal: not a git repository"⟩).2 rfl (by decide)⟩

/-- Claim C6: branch initialization verifies whether the branch exists; when
it does, the branch is checked out and the branch list is unchanged; when it
does not, the branch is created from the current head and checked out; in
both cases the working tree ends on the named branch. -/
theorem ensure_branch_ends_on_branch (s : RepoState) (b : String) :
    (ensure_branch s b).1.current = b ∧
    (b ∈ s.branches →
      (ensure_branch s b).1.branches = s.branches ∧
      (ensure_branch s b).2 = [.verifyRef b, .checkout b]) ∧
    (b ∉ s.branches →
      (ensure_branch s b).1.branches = b :: s.branches ∧
      (ensure_branch s b).2 = [.verifyRef b, .createBranch b]) := by
  by_cases h : b ∈ s.branches <;> simp [ensure_branch, h]

theorem ensure_branch_ends_on_branch_witness :
    (ensure_branch ⟨["main"], "main"⟩ "feature-x").1.current = "feature-x" ∧
    (ensure_branch ⟨["main"], "main"⟩ "feature-x").2 =
      [.verifyRef "feature-x", .createBranch "feature-x"] ∧
    (ensure_branch ⟨["main", "feature-x"], "main"⟩ "feature-x").1.branches =
      ["main", "feature-x"] ∧
    (ensure_branch ⟨["main", "feature-x"], "main"⟩ "feature-x").2 =
      [.verifyRef "feature-x", .checkout "feature-x"] :=
  ⟨(ensure_branch_ends_on_branch ⟨["main"], "main"⟩ "feature-x").1,
   ((ensure_branch_ends_on_branch ⟨["main"], "main"⟩ "feature-x").2.2 (by decide)).2,
   ((ensure_branch_ends_on_branch ⟨["main", "feature-x"], "main"⟩ "feature-x").2.1
      (by decide)).1,
   ((ensure_branch_ends_on_branch ⟨["main", "feature-x"], "main"⟩ "feature-x").2.1
      (by decide)).2⟩

/-- Claim C1: a commit failure other than nothing-to-commit is logged, push
is skipped for that cycle, the iteration ends in the sleep-and-retry state,
and the loop continues with the remaining iterations (restarting from the
mutate step) rather than aborting. -/
theorem commit_failure_logged_and_retried (cfg : LoopConfig)
    (prior : Option String) (ts : String) (addRes commitRes pushRes : ProcResult)
    (ha : addRes.exitCode = 0) (hc : commitRes.exitCode ≠ 0)
    (hm : isNothingToCommit ⟨commitRes.stdout, commitRes.stderr⟩ = false) :
    (runIteration cfg prior ts addRes commitRes pushRes).commitFailureLogged = true ∧
    (runIteration cfg prior ts addRes commitRes pushRes).pushAttempted = false ∧
    (runIteration cfg prior ts addRes commitRes pushRes).status = .retried ∧
    ∀ (s : LoopRepo) (rest : List IterInput),
      (runLoopTrace cfg s (⟨ts, addRes, commitRes, pushRes⟩ :: rest)).2 =
        runIteration cfg s.fileContent ts addRes commitRes pushRes ::
          (runLoopTrace cfg
            ⟨some (runIteration cfg s.fileContent ts addRes commitRes pushRes).fileContent,
             s.commitCount⟩ rest).2 := by
  have hr := fun p => runIteration_commit_fail cfg p ts addRes commitRes pushRes ha hc hm
  refine ⟨by rw [hr prior], by rw [hr prior], by rw [hr prior], ?_⟩
  intro s rest
  simp [runLoopTrace, hr s.fileContent]

theorem commit_failure_logged_and_retried_witness :
    (runIteration ⟨"t \x7bts\x7d", "m", false, false⟩ (some "") "T"
        ⟨0, "", ""⟩ ⟨1, "boom", ""⟩ ⟨0, "", ""⟩).status = .retried := by
  have h := commit_failure_logged_and_retried ⟨"t \x7bts\x7d", "m", false, false⟩
    (some "") "T" ⟨0, "", ""⟩ ⟨1, "boom", ""⟩ ⟨0, "", ""⟩ rfl (by decide) (by decide)
  exact h.2.2.1

/-- Claim C2: when commit fails and the combined captured output contains the
vendor marker "nothing to commit", the failure is swallowed silently (nothing
logged) and the iteration continues to the push step exactly as if the commit
had succeeded, except that no commit is created. -/
theorem nothing_to_commit_swallowed (cfg : LoopConfig) (prior : Option String)
    (ts : String) (addRes commitRes pushRes : ProcResult)
    (ha : addRes.exitCode = 0) (hc : commitRes.exitCode ≠ 0)
    (hm : hasSubstr "nothing to commit" (commitRes.stdout ++ commitRes.stderr) = true) :
    (runIteration cfg prior ts addRes commitRes pushRes).commitFailureLogged = false ∧
    (runIteration cfg prior ts addRes commitRes pushRes).status = .completed ∧
    (runIteration cfg prior ts addRes commitRes pushRes).pushAttempted =
      (pushStep cfg pushRes).1 ∧
    runIteration cfg prior ts addRes commitRes pushRes =
      { runIteration cfg prior ts addRes ⟨0, "", ""⟩ pushRes with
          commitCreated := false } := by
  have hm2 : isNothingToCommit ⟨commitRes.stdout, commitRes.stderr⟩ = true :=
    marker_in_lower hm
  have hr := runIteration_nothing_to_commit cfg prior ts addRes commitRes pushRes ha hc hm2
  have hok := runIteration_commit_ok cfg prior ts addRes ⟨0, "", ""⟩ pushRes ha rfl
  refine ⟨by rw [hr], by rw [hr], by rw [hr], ?_⟩
  rw [hr, hok]

theorem nothing_to_commit_swallowed_witness :
    (runIteration ⟨"x", "m", false, false⟩ (some "") "T"
        ⟨0, "", ""⟩ ⟨1, "", "nothing to commit, working tree clean"⟩
        ⟨0, "", ""⟩).pushAttempted = true := by
  have h := nothing_to_commit_swallowed ⟨"x", "m", false, false⟩ (some "") "T"
    ⟨0, "", ""⟩ ⟨1, "", "nothing to commit, working tree clean"⟩ ⟨0, "", ""⟩
    rfl (by decide) (by decide)
  rw [h.2.2.1]
  rfl

/-- Claim C3: with push enabled, a push failure is logged and the loop
continues; when add and commit succeed and push fails on every iteration,
after N iterations the local commit count has grown by exactly N, every
iteration attempted and logged the push, and none aborted the loop. -/
theorem push_failure_never_blocks (cfg : LoopConfig) (hnp : cfg.noPush = false) :
    ∀ (inputs : List IterInput) (s : LoopRepo),
      (∀ inp ∈ inputs, inp.addRes.exitCode = 0 ∧ inp.commitRes.exitCode = 0 ∧
        inp.pushRes.exitCode ≠ 0) →
      (runLoopTrace cfg s inputs).1.commitCount = s.commitCount + inputs.length ∧
      (runLoopTrace cfg s inputs).2.length = inputs.length ∧
      ∀ e ∈ (runLoopTrace cfg s inputs).2,
        e.pushAttempted = true ∧ e.pushFailureLogged = true ∧
        e.status = .completed := by
  intro inputs
  induction inputs with
  | nil =>
      intro s hin
      simp [runLoopTrace]
  | cons inp rest ih =>
      intro s hin
      obtain ⟨ha, hc, hp⟩ := hin inp (List.mem_cons_self inp rest)
      have hrest : ∀ i ∈ rest, i.addRes.exitCode = 0 ∧ i.commitRes.exitCode = 0 ∧
          i.pushRes.exitCode ≠ 0 :=
        fun i hi => hin i (List.mem_cons_of_mem inp hi)
      have hr := runIteration_commit_ok cfg s.fileContent inp.ts inp.addRes
        inp.commitRes inp.pushRes ha hc
      rw [pushStep_fail hnp hp] at hr
      obtain ⟨ih1, ih2, ih3⟩ := ih
        ⟨some (write_line s.fileContent (renderTemplate cfg.lineTemplate inp.ts)
          cfg.prepend), s.commitCount + 1⟩ hrest
      refine ⟨?_, ?_, ?_⟩
      · simp only [runLoopTrace, hr]
        simp [ih1]
        omega
      · simp only [runLoopTrace, hr]
        simp [ih2]
      · simp only [runLoopTrace, hr]
        simp only [List.mem_cons]
        intro e he
        rcases he with h1 | h2
        · subst h1
          exact ⟨rfl, rfl, rfl⟩
        · exact ih3 e h2

theorem push_failure_never_blocks_witness :
    (runLoopTrace ⟨"x", "m", false, false⟩ ⟨none, 0⟩
      [⟨"T1", ⟨0, "", ""⟩, ⟨0, "", ""⟩, ⟨1, "", "denied"⟩⟩,
       ⟨"T2", ⟨0, "", ""⟩, ⟨0, "", ""⟩, ⟨1, "", "denied"⟩⟩]).1.commitCount = 2 := by
  have h := push_failure_never_blocks ⟨"x", "m", false, false⟩ rfl
    [⟨"T1", ⟨0, "", ""⟩, ⟨0, "", ""⟩, ⟨1, "", "denied"⟩⟩,
     ⟨"T2", ⟨0, "", ""⟩, ⟨0, "", ""⟩, ⟨1, "", "denied"⟩⟩] ⟨none, 0⟩ (by decide)
  simpa using h.1

/-- Claim C7: an append-fixed iteration appends exactly one line
`"heartbeat: <ts>\n"` to the prior file contents, where `<ts>` is the UTC
instant rendered by the fixed-precision ISO-8601 format with microseconds
(the payload contains exactly one newline, at its end, and the microsecond
field occupies exactly six digits). -/
theorem heartbeat_appends_one_line (prior : Option String) (now : UtcTime)
    (hmicro : now.micro < 1000000) :
    (write_heartbeat prior now).1 =
      prior.getD "" ++ "heartbeat: " ++ formatTs now ++ "\n" ∧
    (write_heartbeat prior now).2 = formatTs now ∧
    ("heartbeat: " ++ formatTs now ++ "\n").data.count '\n' = 1 ∧
    endsWithNL ("heartbeat: " ++ formatTs now ++ "\n") = true ∧
    (padNum 6 now.micro).length = 6 := by
  refine ⟨rfl, rfl, ?_, ?_, ?_⟩
  · rw [data_append, data_append, List.count_append, List.count_append,
      count_newline_formatTs]
    decide
  · have e1 : ("heartbeat: " ++ formatTs now ++ "\n").data =
        ("heartbeat: " ++ formatTs now).data ++ ['\n'] := rfl
    rw [endsWithNL, e1, List.getLast?_concat]
    rfl
  · have h6 : now.micro < 10 ^ 6 := by
      have hp : (10 : Nat) ^ 6 = 1000000 := by norm_num
      omega
    exact padNum_length (by norm_num) h6

theorem heartbeat_appends_one_line_witness :
    (write_heartbeat (some "") ⟨2024, 1, 1, 0, 0, 0, 0⟩).1 =
      "heartbeat: 2024-01-01T00:00:00.000000Z\n" := by
  have h := heartbeat_appends_one_line (some "") ⟨2024, 1, 1, 0, 0, 0, 0⟩ (by decide)
  rw [h.1]
  decide

/-- Claim C10: within one loop iteration the timestamp is captured once and
used both for the file mutation and for the commit message: the readme-mode
iteration writes `write_line prior (render template ts)` and commits with
message `message ++ " " ++ ts` for the same `ts`, and in the fixed-mode
script the timestamp `write_heartbeat` returns for the commit message is the
one embedded in the line it appended. -/
theorem timestamp_captured_once (cfg : LoopConfig) (prior : Option String)
    (ts : String) (addRes commitRes pushRes : ProcResult) :
    (runIteration cfg prior ts addRes commitRes pushRes).fileContent =
      write_line prior (renderTemplate cfg.lineTemplate ts) cfg.prepend ∧
    (runIteration cfg prior ts addRes commitRes pushRes).commitMessage =
      cfg.message ++ " " ++ ts ∧
    ∀ (p : Option String) (now : UtcTime),
      (write_heartbeat p now).1 =
        p.getD "" ++ "heartbeat: " ++ (write_heartbeat p now).2 ++ "\n" :=
  ⟨runIteration_fileContent cfg prior ts addRes commitRes pushRes,
   runIteration_commitMessage cfg prior ts addRes commitRes pushRes,
   fun _ _ => rfl⟩
